import Mathlib

/-!
Shallow embedding of `number_types/coordinates.py` (class `Coordinate`).

A `Coordinate` stores the underlying tuple `(self[0], self[1])` together
with the `_is_rectangular` flag set at construction.  Python floats are
modelled as real numbers; Python float `%` (sign of the divisor, result in
`[0, b)` for `b > 0`) is modelled by `fmod`; Python's `ZeroDivisionError`
on float/int division by zero is modelled by `Option.none`; `hash` of the
rectangular tuple is modelled by the pair of stored components itself
(Python's tuple hash is a function of the component values, so equal pairs
hash equally).  Operator dispatch on the dynamic type of the right operand
(`isinstance(other, Coordinate)` / `isinstance(other, numbers.Real)`) is
modelled by the `Operand` sum type, and the `NotImplemented` sentinel by
`OpResult.notImplemented`.
-/

namespace NumberTypes

noncomputable section

/-- The full-turn constant: the source sets `math.tau = 2 * math.pi`. -/
def tau : ℝ := 2 * Real.pi

/-- Python float modulo `a % b`: `a - b * floor(a / b)`; for `b > 0` the
result lies in `[0, b)`. -/
def fmod (a b : ℝ) : ℝ := a - b * (⌊a / b⌋ : ℤ)

/-- `Coordinate(tuple)`: the stored pair `(self[0], self[1])` plus the
`_is_rectangular` tag fixed by `__new__`. -/
structure Coordinate where
  c0 : ℝ
  c1 : ℝ
  is_rectangular : Bool

namespace Coordinate

/-- Property `x`: the stored first component if rectangular, else the first
component of `to_rect()`, i.e. `r * cos(theta)` with `r`, `theta` stored. -/
def x (c : Coordinate) : ℝ :=
  if c.is_rectangular then c.c0 else c.c0 * Real.cos c.c1

/-- Property `y`: the stored second component if rectangular, else
`r * sin(theta)` with `r`, `theta` stored. -/
def y (c : Coordinate) : ℝ :=
  if c.is_rectangular then c.c1 else c.c0 * Real.sin c.c1

/-- Property `r`: `(x**2 + y**2) ** 0.5` if rectangular, else the stored
first component. -/
def r (c : Coordinate) : ℝ :=
  if c.is_rectangular then Real.sqrt (c.x ^ 2 + c.y ^ 2) else c.c0

/-- The angle computed inside `to_polar` for a rectangular `(x, y)` pair:
`atan(y/x)` with `pi` added when `x < 0`; the axis cases use `tau/4` and
`tau*3/4`; the origin gets `0.0`. -/
def angleOf (x y : ℝ) : ℝ :=
  if x ≠ 0 then
    (if x < 0 then Real.arctan (y / x) + Real.pi else Real.arctan (y / x))
  else if y ≠ 0 then
    (if 0 < y then tau / 4 else tau * 3 / 4)
  else 0

/-- Property `theta`: `self.to_polar().theta` if rectangular (which is
`angleOf x y` on the stored components), else the stored second component. -/
def theta (c : Coordinate) : ℝ :=
  if c.is_rectangular then angleOf c.c0 c.c1 else c.c1

/-- `__pos__`: a copy; for a polar instance the angle is reduced
modulo `tau`. -/
def pos (c : Coordinate) : Coordinate :=
  if c.is_rectangular then ⟨c.x, c.y, true⟩ else ⟨c.r, fmod c.theta tau, false⟩

/-- `to_polar()`: for a rectangular receiver, `type(self)(abs(self), theta,
False)` with `theta` the quadrant-corrected angle; otherwise `+self`. -/
def to_polar (c : Coordinate) : Coordinate :=
  if c.is_rectangular then ⟨c.r, angleOf c.x c.y, false⟩ else c.pos

/-- `to_rect()`: the receiver itself if rectangular, else
`type(self)(r * cos(theta), r * sin(theta), True)`. -/
def to_rect (c : Coordinate) : Coordinate :=
  if c.is_rectangular then c
  else ⟨c.r * Real.cos c.theta, c.r * Real.sin c.theta, true⟩

/-- `__eq__` restricted to Coordinate operands.  The source tests
`not other.is_rectangular and not other.is_rectangular` in the second
branch (the same operand twice); the third branch is the recursive call
`self.to_rect() == other.to_rect()`, which compares two rectangular
instances componentwise, written here unfolded. -/
def eq (a b : Coordinate) : Prop :=
  if b.is_rectangular ∧ a.is_rectangular then a.x = b.x ∧ a.y = b.y
  else if ¬b.is_rectangular ∧ ¬b.is_rectangular then
    a.r = b.r ∧ fmod a.theta tau = fmod b.theta tau
  else
    a.to_rect.x = b.to_rect.x ∧ a.to_rect.y = b.to_rect.y

/-- `__neg__`: `+type(self)(-self[0], -self[1], self.is_rectangular)`. -/
def neg (c : Coordinate) : Coordinate :=
  pos ⟨-c.c0, -c.c1, c.is_rectangular⟩

/-- `__add__` with a Coordinate operand: add the rectangular components;
if `self` was polar, convert the rectangular sum back to polar. -/
def add (a b : Coordinate) : Coordinate :=
  let rect_self := a.to_rect
  let other := b.to_rect
  let added : Coordinate := ⟨rect_self.x + other.x, rect_self.y + other.y, true⟩
  if ¬a.is_rectangular then added.to_polar else added

/-- `__sub__` with a Coordinate operand: `self.to_rect()` plus the negation
of `other.to_rect()`, converted back to polar when `self` was polar. -/
def sub (a b : Coordinate) : Coordinate :=
  let rect_self := a.to_rect
  let other := (b.to_rect).neg
  let subtracted : Coordinate := ⟨rect_self.x + other.x, rect_self.y + other.y, true⟩
  if ¬a.is_rectangular then subtracted.to_polar else subtracted

/-- `__mul__` with a real scalar operand. -/
def mul (c : Coordinate) (k : ℝ) : Coordinate :=
  if c.is_rectangular then ⟨c.x * k, c.y * k, true⟩
  else pos ⟨c.r * k, c.theta, false⟩

/-- `__truediv__` with a real scalar operand.  Python float/int division by
zero raises `ZeroDivisionError`, modelled by `none`. -/
def truediv (c : Coordinate) (k : ℝ) : Option Coordinate :=
  if k = 0 then none
  else some (if c.is_rectangular then ⟨c.x / k, c.y / k, true⟩
             else pos ⟨c.r / k, c.theta, false⟩)

/-- `rotate(angle)`: the source builds
`+type(self)(polar_self.r, polar_self.theta + angle)` — the constructor
call omits the representation flag, so the intermediate instance defaults
to rectangular. -/
def rotate (c : Coordinate) (angle : ℝ) : Coordinate :=
  let polar_self := c.to_polar
  let rotated := pos ⟨polar_self.r, polar_self.theta + angle, true⟩
  if c.is_rectangular then rotated.to_rect else rotated

/-- `__hash__`: the hash of the underlying tuple of `self.to_rect()`,
modelled by that pair of stored components. -/
def hash (c : Coordinate) : ℝ × ℝ := ((c.to_rect).c0, (c.to_rect).c1)

/-- `equals(other, tolerance)` with a Coordinate operand:
`abs(self - other) <= tolerance`, where `abs` is the `r` property. -/
def equals (a b : Coordinate) (tolerance : ℝ) : Prop :=
  (a.sub b).r ≤ tolerance

end Coordinate

/-- The dynamic type of a right operand, as the source distinguishes it:
a `Coordinate`, a `numbers.Real` scalar, or anything else. -/
inductive Operand where
  | coord (c : Coordinate)
  | real (k : ℝ)
  | other

/-- Outcome of a Python arithmetic dunder: a result, the `NotImplemented`
sentinel, or a raised `ZeroDivisionError`. -/
inductive OpResult where
  | ok (c : Coordinate)
  | notImplemented
  | zeroDivisionError

/-- `__add__` over arbitrary operands: non-Coordinate operands get
`NotImplemented`. -/
def add_op (self : Coordinate) : Operand → OpResult
  | .coord b => .ok (self.add b)
  | .real _ => .notImplemented
  | .other => .notImplemented

/-- `__sub__` over arbitrary operands: non-Coordinate operands get
`NotImplemented`. -/
def sub_op (self : Coordinate) : Operand → OpResult
  | .coord b => .ok (self.sub b)
  | .real _ => .notImplemented
  | .other => .notImplemented

/-- `__mul__` over arbitrary operands: non-real operands get
`NotImplemented`. -/
def mul_op (self : Coordinate) : Operand → OpResult
  | .coord _ => .notImplemented
  | .real k => .ok (self.mul k)
  | .other => .notImplemented

/-- `__truediv__` over arbitrary operands: non-real operands get
`NotImplemented`; a zero real divisor raises. -/
def div_op (self : Coordinate) : Operand → OpResult
  | .coord _ => .notImplemented
  | .real k =>
    match self.truediv k with
    | some c => .ok c
    | none => .zeroDivisionError
  | .other => .notImplemented

/-- The exception escaping a full Python binary operation. -/
inductive PyError where
  | typeError

/-- The full Python subtraction `self - other`: `Coordinate.__sub__` first,
then the reflected `__rsub__` of the operand.  A real scalar's `__rsub__`
rejects a tuple argument and an inert object has no handler, so both end in
`TypeError`. -/
def py_sub (self : Coordinate) : Operand → Except PyError Coordinate
  | .coord b => .ok (self.sub b)
  | .real _ => .error .typeError
  | .other => .error .typeError

/-- `equals(other, tolerance)` over arbitrary operands: `abs(self - other)`
is taken only after the subtraction succeeds; an escaping `TypeError`
propagates. -/
def equals_op (self : Coordinate) (o : Operand) (tolerance : ℝ) :
    Except PyError Prop :=
  (py_sub self o).map fun d => d.r ≤ tolerance

end

namespace Coordinate

@[simp] theorem x_rect (a b : ℝ) : x ⟨a, b, true⟩ = a := by
  simp [x]

@[simp] theorem y_rect (a b : ℝ) : y ⟨a, b, true⟩ = b := by
  simp [y]

@[simp] theorem x_polar (a b : ℝ) : x ⟨a, b, false⟩ = a * Real.cos b := by
  simp [x]

@[simp] theorem y_polar (a b : ℝ) : y ⟨a, b, false⟩ = a * Real.sin b := by
  simp [y]

@[simp] theorem r_rect (a b : ℝ) : r ⟨a, b, true⟩ = Real.sqrt (a ^ 2 + b ^ 2) := by
  simp [r]

@[simp] theorem r_polar (a b : ℝ) : r ⟨a, b, false⟩ = a := by
  simp [r]

@[simp] theorem theta_rect (a b : ℝ) : theta ⟨a, b, true⟩ = angleOf a b := by
  simp [theta]

@[simp] theorem theta_polar (a b : ℝ) : theta ⟨a, b, false⟩ = b := by
  simp [theta]

@[simp] theorem pos_rect (a b : ℝ) : pos ⟨a, b, true⟩ = ⟨a, b, true⟩ := by
  simp [pos]

@[simp] theorem pos_polar (a b : ℝ) : pos ⟨a, b, false⟩ = ⟨a, fmod b tau, false⟩ := by
  simp [pos]

@[simp] theorem to_polar_of_rect (a b : ℝ) :
    to_polar ⟨a, b, true⟩ = ⟨Real.sqrt (a ^ 2 + b ^ 2), angleOf a b, false⟩ := by
  simp [to_polar]

@[simp] theorem to_polar_of_polar (a b : ℝ) :
    to_polar ⟨a, b, false⟩ = ⟨a, fmod b tau, false⟩ := by
  simp [to_polar]

@[simp] theorem to_rect_of_rect (a b : ℝ) : to_rect ⟨a, b, true⟩ = ⟨a, b, true⟩ := by
  simp [to_rect]

@[simp] theorem to_rect_of_polar (a b : ℝ) :
    to_rect ⟨a, b, false⟩ = ⟨a * Real.cos b, a * Real.sin b, true⟩ := by
  simp [to_rect]

end Coordinate

theorem cos_fmod_tau (t : ℝ) : Real.cos (fmod t tau) = Real.cos t := by
  have h : fmod t tau = t + (-⌊t / tau⌋ : ℤ) * (2 * Real.pi) := by
    rw [fmod, tau]
    push_cast
    ring
  rw [h, Real.cos_add_int_mul_two_pi]

theorem sin_fmod_tau (t : ℝ) : Real.sin (fmod t tau) = Real.sin t := by
  have h : fmod t tau = t + (-⌊t / tau⌋ : ℤ) * (2 * Real.pi) := by
    rw [fmod, tau]
    push_cast
    ring
  rw [h, Real.sin_add_int_mul_two_pi]

theorem cos_eq_of_fmod_eq {s t : ℝ} (h : fmod s tau = fmod t tau) :
    Real.cos s = Real.cos t := by
  rw [← cos_fmod_tau s, h, cos_fmod_tau]

theorem sin_eq_of_fmod_eq {s t : ℝ} (h : fmod s tau = fmod t tau) :
    Real.sin s = Real.sin t := by
  rw [← sin_fmod_tau s, h, sin_fmod_tau]

theorem sqrt_one_add_div_sq (x y : ℝ) (hx : x ≠ 0) :
    Real.sqrt (1 + (y / x) ^ 2) = Real.sqrt (x ^ 2 + y ^ 2) / |x| := by
  have h1 : 1 + (y / x) ^ 2 = (x ^ 2 + y ^ 2) / x ^ 2 := by
    field_simp
  rw [h1, Real.sqrt_div (by positivity), Real.sqrt_sq_eq_abs]

theorem sqrt_mul_cos_arctan (x y : ℝ) (hx : x ≠ 0) :
    Real.sqrt (x ^ 2 + y ^ 2) * Real.cos (Real.arctan (y / x)) = |x| := by
  have hpos : 0 < Real.sqrt (x ^ 2 + y ^ 2) := by
    rw [Real.sqrt_pos]
    positivity
  rw [Real.cos_arctan, sqrt_one_add_div_sq x y hx]
  have hne : Real.sqrt (x ^ 2 + y ^ 2) ≠ 0 := hpos.ne'
  have hxa : |x| ≠ 0 := abs_ne_zero.mpr hx
  field_simp

theorem sqrt_mul_sin_arctan (x y : ℝ) (hx : x ≠ 0) :
    Real.sqrt (x ^ 2 + y ^ 2) * Real.sin (Real.arctan (y / x)) = y / x * |x| := by
  have hpos : 0 < Real.sqrt (x ^ 2 + y ^ 2) := by
    rw [Real.sqrt_pos]
    positivity
  rw [Real.sin_arctan, sqrt_one_add_div_sq x y hx]
  have hne : Real.sqrt (x ^ 2 + y ^ 2) ≠ 0 := hpos.ne'
  have hxa : |x| ≠ 0 := abs_ne_zero.mpr hx
  field_simp
  ring

theorem sqrt_mul_cos_angleOf (x y : ℝ) :
    Real.sqrt (x ^ 2 + y ^ 2) * Real.cos (Coordinate.angleOf x y) = x := by
  by_cases hx : x = 0
  · subst hx
    rw [Coordinate.angleOf, if_neg (by simp)]
    by_cases hy : y = 0
    · subst hy
      simp
    · rw [if_pos hy]
      by_cases hy' : 0 < y
      · rw [if_pos hy']
        have ht : tau / 4 = Real.pi / 2 := by
          rw [tau]
          ring
        rw [ht, Real.cos_pi_div_two, mul_zero]
      · rw [if_neg hy']
        have ht : tau * 3 / 4 = Real.pi + Real.pi / 2 := by
          rw [tau]
          ring
        rw [ht, Real.cos_add, Real.cos_pi_div_two, Real.sin_pi]
        ring
  · rw [Coordinate.angleOf, if_pos hx]
    by_cases hneg : x < 0
    · rw [if_pos hneg, Real.cos_add_pi, mul_neg, sqrt_mul_cos_arctan x y hx,
        abs_of_neg hneg, neg_neg]
    · have hpos : 0 < x := (not_lt.mp hneg).lt_of_ne (Ne.symm hx)
      rw [if_neg hneg, sqrt_mul_cos_arctan x y hx, abs_of_pos hpos]

theorem sqrt_mul_sin_angleOf (x y : ℝ) :
    Real.sqrt (x ^ 2 + y ^ 2) * Real.sin (Coordinate.angleOf x y) = y := by
  by_cases hx : x = 0
  · subst hx
    rw [Coordinate.angleOf, if_neg (by simp)]
    by_cases hy : y = 0
    · subst hy
      simp
    · rw [if_pos hy]
      have hs : Real.sqrt (0 ^ 2 + y ^ 2) = |y| := by
        rw [show (0:ℝ) ^ 2 + y ^ 2 = y ^ 2 by ring, Real.sqrt_sq_eq_abs]
      by_cases hy' : 0 < y
      · rw [if_pos hy']
        have ht : tau / 4 = Real.pi / 2 := by
          rw [tau]
          ring
        rw [ht, Real.sin_pi_div_two, mul_one, hs, abs_of_pos hy']
      · rw [if_neg hy']
        have ht : tau * 3 / 4 = Real.pi + Real.pi / 2 := by
          rw [tau]
          ring
        have hyneg : y < 0 := (not_lt.mp hy').lt_of_ne hy
        rw [ht, Real.sin_add, Real.sin_pi, Real.cos_pi, Real.sin_pi_div_two,
          Real.cos_pi_div_two, hs, abs_of_neg hyneg]
        ring
  · rw [Coordinate.angleOf, if_pos hx]
    by_cases hneg : x < 0
    · rw [if_pos hneg, Real.sin_add_pi, mul_neg, sqrt_mul_sin_arctan x y hx,
        abs_of_neg hneg]
      field_simp
    · have hpos : 0 < x := (not_lt.mp hneg).lt_of_ne (Ne.symm hx)
      rw [if_neg hneg, sqrt_mul_sin_arctan x y hx, abs_of_pos hpos]
      field_simp

namespace Coordinate

theorem x_to_rect (c : Coordinate) : c.to_rect.x = c.x := by
  obtain ⟨a, b, t⟩ := c
  cases t <;> simp

theorem y_to_rect (c : Coordinate) : c.to_rect.y = c.y := by
  obtain ⟨a, b, t⟩ := c
  cases t <;> simp

theorem c0_to_rect (c : Coordinate) : c.to_rect.c0 = c.x := by
  obtain ⟨a, b, t⟩ := c
  cases t <;> simp

theorem c1_to_rect (c : Coordinate) : c.to_rect.c1 = c.y := by
  obtain ⟨a, b, t⟩ := c
  cases t <;> simp

theorem x_to_polar (c : Coordinate) : c.to_polar.x = c.x := by
  obtain ⟨a, b, t⟩ := c
  cases t
  · simp [cos_fmod_tau]
  · simp [sqrt_mul_cos_angleOf]

theorem y_to_polar (c : Coordinate) : c.to_polar.y = c.y := by
  obtain ⟨a, b, t⟩ := c
  cases t
  · simp [sin_fmod_tau]
  · simp [sqrt_mul_sin_angleOf]

theorem r_to_polar (c : Coordinate) : c.to_polar.r = c.r := by
  obtain ⟨a, b, t⟩ := c
  cases t <;> simp

theorem x_eq_r_cos (c : Coordinate) : c.x = c.r * Real.cos c.theta := by
  obtain ⟨a, b, t⟩ := c
  cases t <;> simp [sqrt_mul_cos_angleOf]

theorem y_eq_r_sin (c : Coordinate) : c.y = c.r * Real.sin c.theta := by
  obtain ⟨a, b, t⟩ := c
  cases t <;> simp [sqrt_mul_sin_angleOf]

theorem neg_to_rect (b : Coordinate) : (b.to_rect).neg = ⟨-b.x, -b.y, true⟩ := by
  obtain ⟨p, q, t⟩ := b
  cases t <;> simp [neg, neg_mul]

theorem add_eval (a b : Coordinate) :
    a.add b = if a.is_rectangular then (⟨a.x + b.x, a.y + b.y, true⟩ : Coordinate)
      else to_polar ⟨a.x + b.x, a.y + b.y, true⟩ := by
  cases h : a.is_rectangular <;>
    simp [add, h, x_to_rect, y_to_rect]

theorem sub_eval (a b : Coordinate) :
    a.sub b = if a.is_rectangular then (⟨a.x - b.x, a.y - b.y, true⟩ : Coordinate)
      else to_polar ⟨a.x - b.x, a.y - b.y, true⟩ := by
  cases h : a.is_rectangular <;>
    simp [sub, h, neg_to_rect, x_to_rect, y_to_rect, sub_eq_add_neg]

theorem sub_r_zero {a b : Coordinate} (hx : a.x = b.x) (hy : a.y = b.y) :
    (a.sub b).r = 0 := by
  rw [sub_eval, hx, hy, sub_self, sub_self]
  cases h : a.is_rectangular <;> simp [fmod]

theorem eq_rect_rect {a b : Coordinate} (ha : a.is_rectangular = true)
    (hb : b.is_rectangular = true) : a.eq b ↔ a.x = b.x ∧ a.y = b.y := by
  simp [eq, ha, hb]

theorem eq_of_polar_right {a b : Coordinate} (hb : b.is_rectangular = false) :
    a.eq b ↔ a.r = b.r ∧ fmod a.theta tau = fmod b.theta tau := by
  simp [eq, hb]

theorem eq_polar_rect {a b : Coordinate} (ha : a.is_rectangular = false)
    (hb : b.is_rectangular = true) :
    a.eq b ↔ a.to_rect.x = b.to_rect.x ∧ a.to_rect.y = b.to_rect.y := by
  simp [eq, ha, hb]

theorem hash_eval (c : Coordinate) : c.hash = (c.x, c.y) := by
  rw [hash, c0_to_rect, c1_to_rect]

theorem to_polar_tag (c : Coordinate) : (c.to_polar).is_rectangular = false := by
  obtain ⟨a, b, t⟩ := c
  cases t <;> simp

theorem theta_to_polar (c : Coordinate) (hc : c.is_rectangular = true) :
    (c.to_polar).theta = c.theta := by
  obtain ⟨a, b, t⟩ := c
  cases t
  · simp at hc
  · simp

theorem add_eval_rect (a b : Coordinate) (ha : a.is_rectangular = true) :
    a.add b = ⟨a.x + b.x, a.y + b.y, true⟩ := by
  rw [add_eval, if_pos ha]

theorem add_eval_polar (a b : Coordinate) (ha : a.is_rectangular = false) :
    a.add b = to_polar ⟨a.x + b.x, a.y + b.y, true⟩ := by
  rw [add_eval, if_neg (by simp [ha])]

theorem sub_eval_rect (a b : Coordinate) (ha : a.is_rectangular = true) :
    a.sub b = ⟨a.x - b.x, a.y - b.y, true⟩ := by
  rw [sub_eval, if_pos ha]

theorem sub_eval_polar (a b : Coordinate) (ha : a.is_rectangular = false) :
    a.sub b = to_polar ⟨a.x - b.x, a.y - b.y, true⟩ := by
  rw [sub_eval, if_neg (by simp [ha])]

theorem eq_self (c : Coordinate) : c.eq c := by
  cases hc : c.is_rectangular
  · rw [eq_of_polar_right hc]
    exact ⟨rfl, rfl⟩
  · rw [eq_rect_rect hc hc]
    exact ⟨rfl, rfl⟩

theorem eq_to_polar_l (w : Coordinate) (hw : w.is_rectangular = true) :
    (w.to_polar).eq w := by
  rw [eq_polar_rect (to_polar_tag w) hw]
  exact ⟨by rw [x_to_rect, x_to_polar, x_to_rect],
    by rw [y_to_rect, y_to_polar, y_to_rect]⟩

theorem eq_to_polar_r (w : Coordinate) (hw : w.is_rectangular = true) :
    w.eq (w.to_polar) := by
  rw [eq_of_polar_right (to_polar_tag w)]
  refine ⟨by rw [r_to_polar], ?_⟩
  rw [theta_to_polar w hw]

end Coordinate

/-- C2: the claim states that `rotate` preserves the receiver's
representation tag, but the source constructs the rotated instance without
the representation flag, so it defaults to rectangular: a polar receiver
gets a rectangular result.  Evaluated at the failing input
`Coordinate(1, 0, False).rotate(0)`. -/
theorem rotate_polar_loses_tag :
    (Coordinate.rotate ⟨1, 0, false⟩ 0).is_rectangular = true := by
  simp [Coordinate.rotate]

/-- C3 counterexample: dividing `Coordinate(2, 3)` by the scalar zero does
not produce infinity/NaN components; the division raises
`ZeroDivisionError` (modelled by `none`). -/
theorem truediv_zero_cex : Coordinate.truediv ⟨2, 3, true⟩ 0 = none := by
  simp [Coordinate.truediv]

/-- C3 amended: for every Coordinate `c`, dividing by the scalar zero
raises `ZeroDivisionError` (Python numeric semantics), rather than
producing infinity/NaN component values. -/
theorem truediv_zero_raises (c : Coordinate) : c.truediv 0 = none := by
  simp [Coordinate.truediv]

/-- C5: strict equality implies equal hashes — the hash is always computed
from the rectangular form, and every branch of `__eq__` that succeeds
forces the two rectangular forms to coincide exactly. -/
theorem eq_implies_hash_eq (a b : Coordinate) (h : a.eq b) : a.hash = b.hash := by
  rw [Coordinate.hash_eval, Coordinate.hash_eval]
  have hpt : a.x = b.x ∧ a.y = b.y := by
    cases hb : b.is_rectangular
    · rw [Coordinate.eq_of_polar_right hb] at h
      obtain ⟨hr, hth⟩ := h
      constructor
      · rw [Coordinate.x_eq_r_cos, Coordinate.x_eq_r_cos, hr, cos_eq_of_fmod_eq hth]
      · rw [Coordinate.y_eq_r_sin, Coordinate.y_eq_r_sin, hr, sin_eq_of_fmod_eq hth]
    · cases ha : a.is_rectangular
      · rw [Coordinate.eq_polar_rect ha hb] at h
        obtain ⟨hx, hy⟩ := h
        rw [Coordinate.x_to_rect, Coordinate.x_to_rect] at hx
        rw [Coordinate.y_to_rect, Coordinate.y_to_rect] at hy
        exact ⟨hx, hy⟩
      · rwa [Coordinate.eq_rect_rect ha hb] at h
  rw [hpt.1, hpt.2]

/-- C5 witness: two polar instances whose angles differ by a full turn are
equal and hash equally. -/
theorem eq_implies_hash_eq_witness :
    Coordinate.hash ⟨1, 0, false⟩ = Coordinate.hash ⟨1, tau, false⟩ :=
  eq_implies_hash_eq ⟨1, 0, false⟩ ⟨1, tau, false⟩ (by
    rw [Coordinate.eq_of_polar_right rfl]
    refine ⟨rfl, ?_⟩
    have htau : tau ≠ 0 := by
      rw [tau]
      positivity
    rw [Coordinate.theta_polar, Coordinate.theta_polar, fmod, fmod,
      div_self htau, zero_div]
    norm_num)

/-- C6: the conversions are inverse up to floating tolerance — in the real
model `to_rect(to_polar(c))` and `to_polar(to_rect(c))` denote exactly the
geometric point of `c`, so `equals` holds at every nonnegative tolerance. -/
theorem conversions_inverse (c : Coordinate) (tol : ℝ) (htol : 0 ≤ tol) :
    (c.to_polar.to_rect).equals c tol ∧ (c.to_rect.to_polar).equals c tol := by
  constructor
  · simp only [Coordinate.equals]
    rw [Coordinate.sub_r_zero (by rw [Coordinate.x_to_rect, Coordinate.x_to_polar])
      (by rw [Coordinate.y_to_rect, Coordinate.y_to_polar])]
    exact htol
  · simp only [Coordinate.equals]
    rw [Coordinate.sub_r_zero (by rw [Coordinate.x_to_polar, Coordinate.x_to_rect])
      (by rw [Coordinate.y_to_polar, Coordinate.y_to_rect])]
    exact htol

/-- C6 witness: the round trips through the other representation stay
within tolerance `1e-9` of `Coordinate(1, 2)`. -/
theorem conversions_inverse_witness :
    (Coordinate.to_rect (Coordinate.to_polar ⟨1, 2, true⟩)).equals ⟨1, 2, true⟩ (1e-9) ∧
    (Coordinate.to_polar (Coordinate.to_rect ⟨1, 2, true⟩)).equals ⟨1, 2, true⟩ (1e-9) :=
  conversions_inverse ⟨1, 2, true⟩ (1e-9) (by norm_num)

/-- C7: addition is commutative under the source's strict equality, for
every combination of representations. -/
theorem add_comm_eq (a b : Coordinate) : (a.add b).eq (b.add a) := by
  cases ha : a.is_rectangular <;> cases hb : b.is_rectangular
  · rw [Coordinate.add_eval_polar a b ha, Coordinate.add_eval_polar b a hb,
      add_comm b.x a.x, add_comm b.y a.y]
    exact Coordinate.eq_self _
  · rw [Coordinate.add_eval_polar a b ha, Coordinate.add_eval_rect b a hb,
      add_comm b.x a.x, add_comm b.y a.y]
    exact Coordinate.eq_to_polar_l _ rfl
  · rw [Coordinate.add_eval_rect a b ha, Coordinate.add_eval_polar b a hb,
      add_comm b.x a.x, add_comm b.y a.y]
    exact Coordinate.eq_to_polar_r _ rfl
  · rw [Coordinate.add_eval_rect a b ha, Coordinate.add_eval_rect b a hb,
      add_comm b.x a.x, add_comm b.y a.y]
    exact Coordinate.eq_self _

/-- C9: every arithmetic dunder returns the `NotImplemented` sentinel on an
unsupported operand type — `__add__`/`__sub__` for non-Coordinate operands,
`__mul__`/`__truediv__` for non-real operands. -/
theorem unsupported_operand_not_implemented (c : Coordinate) (o : Operand) :
    ((∀ b, o ≠ Operand.coord b) →
      add_op c o = OpResult.notImplemented ∧ sub_op c o = OpResult.notImplemented) ∧
    ((∀ k, o ≠ Operand.real k) →
      mul_op c o = OpResult.notImplemented ∧ div_op c o = OpResult.notImplemented) := by
  cases o with
  | coord b => exact ⟨fun h => absurd rfl (h b), fun _ => ⟨rfl, rfl⟩⟩
  | real k => exact ⟨fun _ => ⟨rfl, rfl⟩, fun h => absurd rfl (h k)⟩
  | other => exact ⟨fun _ => ⟨rfl, rfl⟩, fun _ => ⟨rfl, rfl⟩⟩

/-- C9 witness: all four operators return `NotImplemented` on an operand
that is neither a Coordinate nor a real scalar. -/
theorem unsupported_operand_not_implemented_witness :
    add_op ⟨0, 0, true⟩ Operand.other = OpResult.notImplemented ∧
    sub_op ⟨0, 0, true⟩ Operand.other = OpResult.notImplemented ∧
    mul_op ⟨0, 0, true⟩ Operand.other = OpResult.notImplemented ∧
    div_op ⟨0, 0, true⟩ Operand.other = OpResult.notImplemented := by
  obtain ⟨h1, h2⟩ := unsupported_operand_not_implemented ⟨0, 0, true⟩ Operand.other
  have ha := h1 (fun b h => Operand.noConfusion h)
  have hb := h2 (fun k h => Operand.noConfusion h)
  exact ⟨ha.1, ha.2, hb.1, hb.2⟩

/-- C10: `equals` with a non-Coordinate operand propagates the `TypeError`
from the failed subtraction (the reflected operation of a real scalar or an
inert object rejects a Coordinate), rather than returning false. -/
theorem equals_non_coord_type_error (c : Coordinate) (o : Operand) (tol : ℝ)
    (h : ∀ b, o ≠ Operand.coord b) :
    equals_op c o tol = Except.error PyError.typeError := by
  cases o with
  | coord b => exact absurd rfl (h b)
  | real k => rfl
  | other => rfl

/-- C10 witness: `Coordinate(1, 1).equals(5, 0)` raises `TypeError`. -/
theorem equals_non_coord_type_error_witness :
    equals_op ⟨1, 1, true⟩ (Operand.real 5) 0 = Except.error PyError.typeError :=
  equals_non_coord_type_error ⟨1, 1, true⟩ (Operand.real 5) 0
    (fun _ h => Operand.noConfusion h)

/-- C1: the claim states `rotate` rotates anticlockwise, but the source
builds the rotated instance without the polar flag, so
`Coordinate(2, 0).rotate(pi/2)` is the rectangular point `(2, pi/2)` — not
within `1e-9` of `Coordinate(0, 2)` (their distance is at least 2). -/
theorem rotate_quarter_turn_divergence :
    Coordinate.rotate ⟨2, 0, true⟩ (Real.pi / 2) = ⟨2, Real.pi / 2, true⟩ ∧
    ¬ (Coordinate.rotate ⟨2, 0, true⟩ (Real.pi / 2)).equals ⟨0, 2, true⟩ (1e-9) := by
  have hsqrt : Real.sqrt ((2:ℝ) ^ 2 + 0 ^ 2) = 2 := by
    rw [show ((2:ℝ) ^ 2 + 0 ^ 2) = 2 ^ 2 by norm_num,
      Real.sqrt_sq (by norm_num : (0:ℝ) ≤ 2)]
  have hangle : Coordinate.angleOf 2 0 = 0 := by
    rw [Coordinate.angleOf, if_pos (by norm_num), if_neg (by norm_num)]
    norm_num [Real.arctan_zero]
  have hrot : Coordinate.rotate ⟨2, 0, true⟩ (Real.pi / 2) = ⟨2, Real.pi / 2, true⟩ := by
    simp [Coordinate.rotate, hsqrt, hangle]
  refine ⟨hrot, ?_⟩
  rw [hrot]
  simp only [Coordinate.equals]
  rw [Coordinate.sub_eval_rect _ _ rfl]
  simp only [Coordinate.x_rect, Coordinate.y_rect, Coordinate.r_rect]
  intro hcontra
  have hle : (2:ℝ) ≤ Real.sqrt ((2 - 0) ^ 2 + (Real.pi / 2 - 2) ^ 2) := by
    have h1 := Real.sqrt_le_sqrt
      (show ((2:ℝ)) ^ 2 ≤ (2 - 0) ^ 2 + (Real.pi / 2 - 2) ^ 2 by
        nlinarith [sq_nonneg (Real.pi / 2 - 2)])
    rwa [Real.sqrt_sq (by norm_num : (0:ℝ) ≤ 2)] at h1
  have hsmall : (1e-9 : ℝ) < 2 := by norm_num
  linarith

/-- C4 counterexample: `Coordinate(0, 0)` and the polar `Coordinate(0, 1,
False)` have exactly equal rectangular forms, yet `==` reports them
unequal: because the right operand is polar, the source compares
magnitudes and angles modulo tau instead of converting both to
rectangular. -/
theorem eq_mixed_cex :
    ((Coordinate.to_rect ⟨0, 0, true⟩).x = (Coordinate.to_rect ⟨0, 1, false⟩).x ∧
      (Coordinate.to_rect ⟨0, 0, true⟩).y = (Coordinate.to_rect ⟨0, 1, false⟩).y) ∧
    ¬ Coordinate.eq ⟨0, 0, true⟩ ⟨0, 1, false⟩ := by
  refine ⟨⟨by simp, by simp⟩, ?_⟩
  rw [Coordinate.eq_of_polar_right rfl]
  rintro ⟨-, hth⟩
  have h0 : Coordinate.theta (⟨0, 0, true⟩ : Coordinate) = 0 := by
    rw [Coordinate.theta_rect, Coordinate.angleOf, if_neg (by simp), if_neg (by simp)]
  have h1 : Coordinate.theta (⟨0, 1, false⟩ : Coordinate) = 1 := by simp
  rw [h0, h1] at hth
  have htaupos : (0:ℝ) < tau := by
    rw [tau]
    positivity
  have htau1 : (1:ℝ) < tau := by
    rw [tau]
    nlinarith [Real.pi_gt_three]
  have hf0 : fmod 0 tau = 0 := by simp [fmod]
  have hf1 : fmod 1 tau = 1 := by
    rw [fmod]
    have hfloor : ⌊(1:ℝ) / tau⌋ = 0 := by
      rw [Int.floor_eq_zero_iff, Set.mem_Ico]
      constructor
      · exact le_of_lt (div_pos one_pos htaupos)
      · rw [div_lt_one htaupos]
        exact htau1
    rw [hfloor]
    norm_num
  rw [hf0, hf1] at hth
  exact one_ne_zero hth.symm

/-- C4 amended: whenever the right operand is polar (regardless of the left
operand's representation), `==` compares magnitudes exactly and angles
modulo tau; only in the remaining mixed case — left polar, right
rectangular — are both operands converted to rectangular and compared
exactly. -/
theorem eq_mixed_branches (a b : Coordinate) :
    (b.is_rectangular = false →
      (a.eq b ↔ a.r = b.r ∧ fmod a.theta tau = fmod b.theta tau)) ∧
    (a.is_rectangular = false → b.is_rectangular = true →
      (a.eq b ↔ a.to_rect.x = b.to_rect.x ∧ a.to_rect.y = b.to_rect.y)) :=
  ⟨fun hb => Coordinate.eq_of_polar_right hb,
    fun ha hb => Coordinate.eq_polar_rect ha hb⟩

/-- C4 amended witness: instantiated at a rectangular left operand and a
polar right operand. -/
theorem eq_mixed_branches_witness :
    Coordinate.eq ⟨1, 2, true⟩ ⟨3, 4, false⟩ ↔
      Coordinate.r ⟨1, 2, true⟩ = Coordinate.r ⟨3, 4, false⟩ ∧
        fmod (Coordinate.theta ⟨1, 2, true⟩) tau =
          fmod (Coordinate.theta ⟨3, 4, false⟩) tau :=
  (eq_mixed_branches ⟨1, 2, true⟩ ⟨3, 4, false⟩).1 rfl

/-- C8: `to_polar` computes the quadrant-correct angle — `atan(y/x)` plus
`pi` exactly when `x < 0`; for `x = 0` and `y < 0` the angle is `3*tau/4`;
in particular `Coordinate(-1, 0)` has angle `pi` and `Coordinate(0, -2)`
has angle `3*tau/4`. -/
theorem to_polar_quadrant (x y : ℝ) :
    (x ≠ 0 → Coordinate.theta ⟨x, y, true⟩ =
      Real.arctan (y / x) + (if x < 0 then Real.pi else 0)) ∧
    (x = 0 → y < 0 → Coordinate.theta ⟨x, y, true⟩ = 3 * tau / 4) ∧
    Coordinate.theta ⟨-1, 0, true⟩ = Real.pi ∧
    Coordinate.theta ⟨0, -2, true⟩ = 3 * tau / 4 := by
  refine ⟨?_, ?_, ?_, ?_⟩
  · intro hx
    rw [Coordinate.theta_rect, Coordinate.angleOf, if_pos hx]
    by_cases hneg : x < 0
    · rw [if_pos hneg, if_pos hneg]
    · rw [if_neg hneg, if_neg hneg, add_zero]
  · intro hx hy
    subst hx
    rw [Coordinate.theta_rect, Coordinate.angleOf, if_neg (by simp),
      if_pos hy.ne, if_neg (not_lt.mpr hy.le)]
    ring
  · rw [Coordinate.theta_rect, Coordinate.angleOf, if_pos (by norm_num),
      if_pos (by norm_num)]
    norm_num [Real.arctan_zero]
  · rw [Coordinate.theta_rect, Coordinate.angleOf, if_neg (by norm_num),
      if_pos (by norm_num), if_neg (by norm_num)]
    ring

/-- C8 witness: the quadrant-correction branch evaluated at `(-1, 0)`. -/
theorem to_polar_quadrant_witness :
    Coordinate.theta ⟨-1, 0, true⟩ =
      Real.arctan (0 / (-1)) + (if (-1:ℝ) < 0 then Real.pi else 0) :=
  (to_polar_quadrant (-1) 0).1 (by norm_num)

end NumberTypes
